import Mathlib

/-!
Shallow embedding of the Aseprite binary decoder in `src/ase/aseprite.rs`
(crate `aseprite-viewer-rust`).

Bytes are modelled as `Nat`, byte buffers as `List Nat`, and the seekable
stream as a `List Nat` together with an explicit position.  Every fallible
step of the Rust code runs in the outcome type `Res`: `ok` is a normal
value, `err` is a `return Err(())` site of `read` (tagged by which return
statement fired, since the Rust error type `()` carries no data), and
`panicked` is a Rust panic (out-of-bounds slice indexing, `unreachable!`,
`unimplemented!`).  The external DEFLATE inflater (crate `flate2`,
`ZlibDecoder::read_to_end`) is abstracted as a function parameter
`inflate : List Nat → Option (List Nat)`; `none` models an inflate error.
-/

namespace Ase

/-- Tags for the distinct `return Err(())` sites of `read` in the source. -/
inductive DecodeErr where
  | truncatedHeader
  | badMagic
  | badFrameMagic
  | decompressionFailed
  deriving DecidableEq

/-- Outcome of running a piece of the Rust decoder: a normal value, an
`Err(())` return (tagged by the return site), or a Rust panic. -/
inductive Res (α : Type) where
  | ok (a : α)
  | err (e : DecodeErr)
  | panicked (msg : String)
  deriving DecidableEq

def Res.bind {α β : Type} : Res α → (α → Res β) → Res β
  | .ok a, f => f a
  | .err e, _ => .err e
  | .panicked m, _ => .panicked m

instance : Monad Res where
  pure := Res.ok
  bind := Res.bind

@[simp] theorem Res.bind_eq {α β : Type} (x : Res α) (f : α → Res β) :
    x >>= f = Res.bind x f := rfl

@[simp] theorem Res.pure_eq {α : Type} (a : α) : (pure a : Res α) = Res.ok a := rfl

@[simp] theorem Res.ok_bind {α β : Type} (a : α) (f : α → Res β) :
    Res.bind (Res.ok a) f = f a := rfl

@[simp] theorem Res.err_bind {α β : Type} (e : DecodeErr) (f : α → Res β) :
    Res.bind (Res.err e) f = Res.err e := rfl

@[simp] theorem Res.panicked_bind {α β : Type} (m : String) (f : α → Res β) :
    Res.bind (Res.panicked m) f = Res.panicked m := rfl

theorem Res.bind_eq_ok {α β : Type} {x : Res α} {f : α → Res β} {b : β} :
    Res.bind x f = Res.ok b ↔ ∃ a, x = Res.ok a ∧ f a = Res.ok b := by
  cases x <;> simp [Res.bind]

/-- Little-endian value of a byte list (`from_le_bytes`). -/
def leVal : List Nat → Nat
  | [] => 0
  | b :: bs => b + 256 * leVal bs

/-- The `slice_to!` macro: `from_le_bytes(slice.try_into().unwrap_or([0; N]))`.
`try_into` to `[u8; n]` succeeds exactly when the slice has length `n`;
otherwise the fallback array of zeroes decodes to 0. -/
def slice_to (n : Nat) (s : List Nat) : Nat :=
  if s.length = n then leVal s else 0

/-- The contiguous byte range `[a, b)` of a buffer, as a pure list. -/
def sub (v : List Nat) (a b : Nat) : List Nat :=
  (v.drop a).take (b - a)

/-- Rust slice indexing `&v[a..b]`: panics when the range is out of bounds. -/
def slice (v : List Nat) (a b : Nat) : Res (List Nat) :=
  if a ≤ b ∧ b ≤ v.length then .ok (sub v a b) else .panicked "slice index out of range"

/-- Rust element indexing `v[i]`: panics when out of bounds. -/
def idx (v : List Nat) (i : Nat) : Res Nat :=
  if h : i < v.length then .ok v[i] else .panicked "slice index out of range"

/-- The `slice_cnt!` macro: `v[from..(from+len)].try_into().unwrap_or([0; len])`.
The indexing panics when out of bounds; the `unwrap_or` fallback to a zero
array is kept from the source text (it is dead code, since an in-bounds
range always has exactly `len` elements). -/
def slice_cnt (v : List Nat) (a len : Nat) : Res (List Nat) := do
  let s ← slice v a (a + len)
  pure (if s.length = len then s else List.replicate len 0)

/-- Interpretation of a 16-bit little-endian wire value as an `i16`. -/
def toI16 (v : Nat) : Int :=
  if v < 32768 then (v : Int) else (v : Int) - 65536

/-- `slice_to!(u16, &v[a..b])`. -/
def rd_u16 (v : List Nat) (a b : Nat) : Res Nat := do
  let s ← slice v a b
  pure (slice_to 2 s)

/-- `slice_to!(u32, &v[a..b])`. -/
def rd_u32 (v : List Nat) (a b : Nat) : Res Nat := do
  let s ← slice v a b
  pure (slice_to 4 s)

/-- `slice_to!(i16, &v[a..b])`. -/
def rd_i16 (v : List Nat) (a b : Nat) : Res Int := do
  let x ← rd_u16 v a b
  pure (toI16 x)

def ASEPRITE_MAGIC_HEADER : Nat := 0xA5E0
def ASEPRITE_MAGIC_FRAMES : Nat := 0xF1FA
def ASEPRITE_LAYER_CHUNK_MAGIC : Nat := 0x2004
def ASEPRITE_CEL_CHUNK_MAGIC : Nat := 0x2005
def ASEPRITE_TAG_CHUNK_MAGIC : Nat := 0x2018

structure AsepriteString where
  length : Nat
  data : List Nat
  deriving DecidableEq

/-- `AsepriteString::read_from_bytes`: a 2-byte length prefix, then the whole
remainder of the given range as the string bytes (`from[2..].to_vec()`). -/
def AsepriteString.read_from_bytes (s : List Nat) : Res AsepriteString := do
  let pre ← slice s 0 2
  let d ← slice s 2 s.length
  pure ⟨slice_to 2 pre, d⟩

inductive AsepriteBlendMode where
  | Normal | Multiply | Screen | Overlay | Darken | Lighten
  | ColorDodge | ColorBurn | HardLight | SoftLight | Difference
  | Exclusion | Hue | Saturation | Color | Luminosity
  | Addition | Subtract | Divide
  deriving DecidableEq

/-- `impl From<u16> for AsepriteBlendMode`: match on `value % 19`, with the
catch-all arm being `unreachable!`. -/
def AsepriteBlendMode.fromValue (value : Nat) : Res AsepriteBlendMode :=
  match value % 19 with
  | 0 => .ok .Normal
  | 1 => .ok .Multiply
  | 2 => .ok .Screen
  | 3 => .ok .Overlay
  | 4 => .ok .Darken
  | 5 => .ok .Lighten
  | 6 => .ok .ColorDodge
  | 7 => .ok .ColorBurn
  | 8 => .ok .HardLight
  | 9 => .ok .SoftLight
  | 10 => .ok .Difference
  | 11 => .ok .Exclusion
  | 12 => .ok .Hue
  | 13 => .ok .Saturation
  | 14 => .ok .Color
  | 15 => .ok .Luminosity
  | 16 => .ok .Addition
  | 17 => .ok .Subtract
  | 18 => .ok .Divide
  | _ => .panicked "should be impossible value from modulo bound"

inductive AsepriteLayerType where
  | Normal | Group | Tilemap
  deriving DecidableEq

/-- `impl From<u16> for AsepriteLayerType`: match on `value % 3`. -/
def AsepriteLayerType.fromValue (value : Nat) : Res AsepriteLayerType :=
  match value % 3 with
  | 0 => .ok .Normal
  | 1 => .ok .Group
  | 2 => .ok .Tilemap
  | _ => .panicked "should be impossible value from modulo bound"

inductive AsepriteCelType where
  | Raw | Linked | CompressedImage | CompressedTilemap
  deriving DecidableEq

/-- `impl From<u16> for AsepriteCelType`: match on `value % 4`. -/
def AsepriteCelType.fromValue (value : Nat) : Res AsepriteCelType :=
  match value % 4 with
  | 0 => .ok .Raw
  | 1 => .ok .Linked
  | 2 => .ok .CompressedImage
  | 3 => .ok .CompressedTilemap
  | _ => .panicked "should be impossible value from modulo bound"

inductive AsepriteTagDirection where
  | Forward | Reverse | PingPong | PingPongReverse
  deriving DecidableEq

/-- `impl From<u8> for AsepriteTagDirection`: match on `value % 4`. -/
def AsepriteTagDirection.fromValue (value : Nat) : Res AsepriteTagDirection :=
  match value % 4 with
  | 0 => .ok .Forward
  | 1 => .ok .Reverse
  | 2 => .ok .PingPong
  | 3 => .ok .PingPongReverse
  | _ => .panicked "should be impossible value from modulo bound"

structure AsepriteHeader where
  fsize : Nat
  magic : Nat
  frames : Nat
  width : Nat
  height : Nat
  colour_depth : Nat
  flags : Nat
  speed : Nat
  zero : List Nat
  palette_entry : Nat
  ignore : List Nat
  colour_count : Nat
  pixel_width : Nat
  pixel_height : Nat
  grid_xpos : Int
  grid_ypos : Int
  grid_width : Nat
  grid_height : Nat
  future : List Nat
  deriving DecidableEq

structure RawAsepriteChunk where
  size : Nat
  chunk_type : Nat
  data : List Nat
  deriving DecidableEq

structure AsepriteLayerChunk where
  flags : Nat
  layer_type : AsepriteLayerType
  child_level : Nat
  default_width : Nat
  default_height : Nat
  blend_mode : AsepriteBlendMode
  opacity : Nat
  future : List Nat
  name : AsepriteString
  tileset_index : Option Nat
  deriving DecidableEq

structure AsepriteCelChunk where
  layer_index : Nat
  x_pos : Int
  y_pos : Int
  opacity : Nat
  cel_type : AsepriteCelType
  z_index : Int
  future : List Nat
  width : Option Nat
  height : Option Nat
  raw_data : Option (List Nat)
  linked_to : Option Nat
  compressed_data : Option (List Nat)
  deriving DecidableEq

structure AsepriteTag where
  from_ : Nat
  to_ : Nat
  direction : AsepriteTagDirection
  repeat_count : Nat
  reserved : List Nat
  colour : List Nat
  extra : Nat
  name : AsepriteString
  deriving DecidableEq

structure AsepriteTagChunk where
  tag_count : Nat
  future : List Nat
  tags : List AsepriteTag
  deriving DecidableEq

inductive Chunk where
  | Unknown (c : RawAsepriteChunk)
  | Layer (c : AsepriteLayerChunk)
  | Cel (c : AsepriteCelChunk)
  | Tag (c : AsepriteTagChunk)
  deriving DecidableEq

structure AsepriteFrame where
  size : Nat
  magic : Nat
  old_chunks : Nat
  frame_duration : Nat
  future : List Nat
  chunk_count : Nat
  chunks : List Chunk
  deriving DecidableEq

structure Aseprite where
  header : AsepriteHeader
  frames : List AsepriteFrame
  deriving DecidableEq

/-- The `ASEPRITE_LAYER_CHUNK_MAGIC` arm of the chunk dispatch: decode a
Layer chunk from its full span `data` (offsets include the 6-byte chunk
header).  When the layer kind is Tilemap, the name range stops 4 bytes
short of the end of the span and those 4 bytes decode as the tileset
index. -/
def readLayerChunk (data : List Nat) : Res Chunk := do
  let ltw ← rd_u16 data 8 10
  let layer_type ← AsepriteLayerType.fromValue ltw
  let is_tilemap : Bool := decide (layer_type = AsepriteLayerType.Tilemap)
  let flags ← rd_u16 data 6 8
  let child_level ← rd_u16 data 10 12
  let default_width ← rd_u16 data 12 14
  let default_height ← rd_u16 data 14 16
  let bmw ← rd_u16 data 16 18
  let blend_mode ← AsepriteBlendMode.fromValue bmw
  let opacity ← idx data 18
  let future ← slice_cnt data 19 3
  let nameBytes ← slice data 22 (data.length - if is_tilemap then 4 else 0)
  let name ← AsepriteString.read_from_bytes nameBytes
  let tileset_index ←
    if is_tilemap then do
      let t ← rd_u32 data (data.length - 4) data.length
      pure (some t)
    else pure (none : Option Nat)
  pure (Chunk.Layer ⟨flags, layer_type, child_level, default_width, default_height,
    blend_mode, opacity, future, name, tileset_index⟩)

/-- The `ASEPRITE_CEL_CHUNK_MAGIC` arm of the chunk dispatch: decode a Cel
chunk from its full span, then branch on the cel kind.  `Raw` stores the
rest of the span verbatim; `CompressedImage` stores the compressed rest
and eagerly inflates it into `raw_data` (an inflate error is the
`DecompressionFailed` return site); `CompressedTilemap` is the
`unimplemented!` panic of the source. -/
def readCelChunk (inflate : List Nat → Option (List Nat)) (data : List Nat) : Res Chunk := do
  let layer_index ← rd_u16 data 6 8
  let x_pos ← rd_i16 data 8 10
  let y_pos ← rd_i16 data 10 12
  let opacity ← idx data 12
  let ctw ← rd_u16 data 13 15
  let cel_type ← AsepriteCelType.fromValue ctw
  let z_index ← rd_i16 data 15 17
  let future ← slice_cnt data 17 5
  match cel_type with
  | .Raw => do
      let width ← rd_u16 data 22 24
      let height ← rd_u16 data 24 26
      let raw ← slice data 26 data.length
      pure (Chunk.Cel ⟨layer_index, x_pos, y_pos, opacity, AsepriteCelType.Raw, z_index,
        future, some width, some height, some raw, none, none⟩)
  | .Linked => do
      let linked ← rd_u16 data 22 24
      pure (Chunk.Cel ⟨layer_index, x_pos, y_pos, opacity, AsepriteCelType.Linked, z_index,
        future, none, none, none, some linked, none⟩)
  | .CompressedImage => do
      let width ← rd_u16 data 22 24
      let height ← rd_u16 data 24 26
      let comp ← slice data 26 data.length
      match inflate comp with
      | some r =>
          pure (Chunk.Cel ⟨layer_index, x_pos, y_pos, opacity, AsepriteCelType.CompressedImage,
            z_index, future, some width, some height, some r, none, some comp⟩)
      | none => Res.err .decompressionFailed
  | .CompressedTilemap => Res.panicked "compressed tilemap unsupported"

/-- The record-walking loop of the Tag chunk decoder: for each record, read
the fixed 17-byte portion and the name (whose length is the 2 bytes at
`17 + offset`), then advance the offset by `19 + name_len`.  Returns the
decoded tags together with the final offset. -/
def readTagsLoop (data : List Nat) : Nat → Nat → Res (List AsepriteTag × Nat)
  | offset, 0 => pure ([], offset)
  | offset, n + 1 => do
      let nlPre ← slice data (17 + offset) (19 + offset)
      let name_len := slice_to 2 nlPre
      let f ← rd_u16 data (0 + offset) (2 + offset)
      let t ← rd_u16 data (2 + offset) (4 + offset)
      let db ← idx data (4 + offset)
      let direction ← AsepriteTagDirection.fromValue db
      let repeat_count ← rd_u16 data (5 + offset) (7 + offset)
      let reserved ← slice_cnt data (7 + offset) 6
      let colour ← slice_cnt data (13 + offset) 3
      let extra ← idx data (16 + offset)
      let nameBytes ← slice data (17 + offset) (19 + offset + name_len)
      let name ← AsepriteString.read_from_bytes nameBytes
      let (rest, final) ← readTagsLoop data (offset + (19 + name_len)) n
      pure (⟨f, t, direction, repeat_count, reserved, colour, extra, name⟩ :: rest, final)

/-- The `ASEPRITE_TAG_CHUNK_MAGIC` arm of the chunk dispatch: tag count at
`[6,8)`, 8 reserved bytes, then the record walk starting at offset 16
(relative to the start of the chunk span). -/
def readTagChunk (data : List Nat) : Res Chunk := do
  let tag_count ← rd_u16 data 6 8
  let future ← slice_cnt data 8 8
  let (tags, _) ← readTagsLoop data 16 tag_count
  pure (Chunk.Tag ⟨tag_count, future, tags⟩)

/-- One `Read::read` call into a pre-existing buffer `old` of length `n`:
fills the first `min n (stream.length - pos)` bytes from the stream at
`pos`, keeps the remaining bytes of `old`, and returns the new buffer, the
count read, and the new position. -/
def readBuf (stream : List Nat) (pos n : Nat) (old : List Nat) : List Nat × Nat × Nat :=
  let cnt := min n (stream.length - pos)
  (((stream.drop pos).take cnt) ++ old.drop cnt, cnt, pos + cnt)

/-- The `match chunk_type` dispatch of `read`, applied to the full chunk
span `data`. -/
def chunkDispatch (inflate : List Nat → Option (List Nat)) (size chunk_type : Nat)
    (data : List Nat) : Res Chunk :=
  if chunk_type = ASEPRITE_LAYER_CHUNK_MAGIC then readLayerChunk data
  else if chunk_type = ASEPRITE_CEL_CHUNK_MAGIC then readCelChunk inflate data
  else if chunk_type = ASEPRITE_TAG_CHUNK_MAGIC then readTagChunk data
  else Res.ok (Chunk.Unknown ⟨size, chunk_type, data⟩)

/-- One iteration of the chunk loop of `read`: read the 4-byte size and the
2-byte type tag into fresh zeroed buffers, seek back to the chunk start,
read `size` bytes as the chunk's full span, and dispatch on the type tag.
Returns the chunk and the new stream position. -/
def readChunk (inflate : List Nat → Option (List Nat)) (stream : List Nat) (pos : Nat) :
    Res (Chunk × Nat) := do
  let r1 := readBuf stream pos 4 (List.replicate 4 0)
  let size := leVal r1.1
  let r2 := readBuf stream r1.2.2 2 (List.replicate 2 0)
  let chunk_type := leVal r2.1
  let r3 := readBuf stream pos size (List.replicate size 0)
  let c ← chunkDispatch inflate size chunk_type r3.1
  pure (c, r3.2.2)

/-- The `for _ in 0..frame.chunk_count` loop. -/
def readChunksLoop (inflate : List Nat → Option (List Nat)) (stream : List Nat) :
    Nat → Nat → Res (List Chunk × Nat)
  | 0, pos => pure ([], pos)
  | n + 1, pos => do
      let (c, pos1) ← readChunk inflate stream pos
      let (rest, pos2) ← readChunksLoop inflate stream n pos1
      pure (c :: rest, pos2)

/-- The `while from.read(&mut frame_buffer) > 0` loop of `read`.  The
16-byte frame buffer is allocated once and reused, so a short read keeps
stale bytes from the previous iteration; a zero-byte read ends decoding
normally.  The `fuel` argument bounds the recursion; the Rust loop
terminates because the stream position strictly advances every iteration,
and `read` supplies more fuel than the stream has bytes, so the fuel-out
branch is never taken on the Rust-reachable executions the theorems
describe. -/
def readFramesLoop (inflate : List Nat → Option (List Nat)) (stream : List Nat) :
    Nat → Nat → List Nat → Res (List AsepriteFrame)
  | 0, _, _ => Res.panicked "loop fuel exhausted"
  | fuel + 1, pos, fbuf =>
      let r := readBuf stream pos 16 fbuf
      let fbuf1 := r.1
      let cnt := r.2.1
      let pos1 := r.2.2
      if cnt = 0 then Res.ok []
      else
        let size := slice_to 4 (sub fbuf1 0 4)
        let magic := slice_to 2 (sub fbuf1 4 6)
        let old_chunks := slice_to 2 (sub fbuf1 6 8)
        let frame_duration := slice_to 2 (sub fbuf1 8 10)
        let future := sub fbuf1 10 12
        let chunk_count := slice_to 4 (sub fbuf1 12 16)
        if magic ≠ ASEPRITE_MAGIC_FRAMES then Res.err .badFrameMagic
        else do
          let (chunks, pos2) ← readChunksLoop inflate stream chunk_count pos1
          let rest ← readFramesLoop inflate stream fuel pos2 fbuf1
          pure (⟨size, magic, old_chunks, frame_duration, future, chunk_count, chunks⟩ :: rest)

/-- The 128-byte header record, decoded from the header buffer at the fixed
offsets of the source. -/
def parseHeader (h : List Nat) : AsepriteHeader :=
  ⟨slice_to 4 (sub h 0 4), slice_to 2 (sub h 4 6), slice_to 2 (sub h 6 8),
   slice_to 2 (sub h 8 10), slice_to 2 (sub h 10 12), slice_to 2 (sub h 12 14),
   slice_to 4 (sub h 14 18), slice_to 2 (sub h 18 20), sub h 20 28,
   h.getD 28 0, sub h 29 32, slice_to 2 (sub h 32 34), h.getD 34 0, h.getD 35 0,
   toI16 (slice_to 2 (sub h 36 38)), toI16 (slice_to 2 (sub h 38 40)),
   slice_to 2 (sub h 40 42), slice_to 2 (sub h 42 44), sub h 44 128⟩

/-- The top-level `read` of the source: read 128 header bytes (a short read
is the `TruncatedHeader` return site), check the header magic (the
`BadMagic` return site), then run the frame loop. -/
def read (inflate : List Nat → Option (List Nat)) (stream : List Nat) : Res Aseprite :=
  let r := readBuf stream 0 128 (List.replicate 128 0)
  if r.2.1 ≠ 128 then Res.err .truncatedHeader
  else
    let header := parseHeader r.1
    if header.magic ≠ ASEPRITE_MAGIC_HEADER then Res.err .badMagic
    else do
      let frames ← readFramesLoop inflate stream (stream.length + 1) r.2.2 (List.replicate 16 0)
      pure ⟨header, frames⟩

/-! Helper lemmas about the byte-range primitives. -/

theorem sub_length {v : List Nat} {a b : Nat} (h : b ≤ v.length) :
    (sub v a b).length = b - a := by
  simp [sub]
  omega

theorem sub_append_left {l₁ l₂ : List Nat} {a b : Nat} (h : b ≤ l₁.length) :
    sub (l₁ ++ l₂) a b = sub l₁ a b := by
  rcases le_or_lt a l₁.length with ha | ha
  · unfold sub
    rw [List.drop_append_of_le_length ha,
      List.take_append_of_le_length (by simp; omega)]
  · have hb : b - a = 0 := by omega
    simp [sub, hb]

theorem sub_append_drop {l₁ l₂ : List Nat} {a b : Nat} :
    sub (l₁ ++ l₂) (l₁.length + a) (l₁.length + b) = sub l₂ a b := by
  unfold sub
  have h1 : (l₁ ++ l₂).drop (l₁.length + a) = l₂.drop a := by
    rw [← List.drop_drop, List.drop_left]
  rw [h1]
  congr 1
  omega

theorem sub_sub {v : List Nat} {p n a b : Nat} (h : b ≤ n) :
    sub (sub v p (p + n)) a b = sub v (p + a) (p + b) := by
  unfold sub
  have h1 : p + n - p = n := by omega
  rw [h1, List.drop_take, List.take_take, List.drop_drop]
  have h2 : min (b - a) (n - a) = b - a := by omega
  have h4 : p + b - (p + a) = b - a := by omega
  rw [h2, h4]

theorem sub_all (v : List Nat) (a : Nat) : sub v a v.length = v.drop a := by
  unfold sub
  exact List.take_of_length_le (by simp)

theorem sub_drop_two {v : List Nat} {p q : Nat} :
    (sub v p q).drop 2 = sub v (p + 2) q := by
  unfold sub
  rw [List.drop_take, List.drop_drop]
  have e1 : q - p - 2 = q - (p + 2) := by omega
  rw [e1]

theorem name_range {v : List Nat} {p q : Nat} :
    sub (sub v p q) 2 ((sub v p q).length) = sub v (p + 2) q := by
  rw [sub_all, sub_drop_two]

theorem readBuf_exact {stream : List Nat} {pos n : Nat} {old : List Nat}
    (hold : old.length = n) (h : pos + n ≤ stream.length) :
    readBuf stream pos n old = (sub stream pos (pos + n), n, pos + n) := by
  have hmin : min n (stream.length - pos) = n := by omega
  have hdrop : old.drop n = [] := by
    rw [← hold]; exact List.drop_length old
  simp [readBuf, hmin, hdrop, sub, Nat.add_sub_cancel_left]

theorem slice_eq_ok {v : List Nat} {a b : Nat} {s : List Nat} :
    slice v a b = Res.ok s ↔ a ≤ b ∧ b ≤ v.length ∧ s = sub v a b := by
  unfold slice
  split
  · rename_i h
    simp [h.1, h.2, eq_comm]
  · rename_i h
    simp only [not_and_or] at h
    constructor
    · intro hc; cases hc
    · intro ⟨h1, h2, _⟩
      tauto

theorem slice_ok {v : List Nat} {a b : Nat} (hab : a ≤ b) (hb : b ≤ v.length) :
    slice v a b = Res.ok (sub v a b) := by
  simp [slice, hab, hb]

theorem idx_eq_ok {v : List Nat} {i x : Nat} :
    idx v i = Res.ok x ↔ i < v.length ∧ x = v.getD i 0 := by
  unfold idx
  split
  · rename_i h
    simp [h, eq_comm, List.getD_eq_getElem]
  · rename_i h
    constructor
    · intro hc; cases hc
    · intro ⟨h1, _⟩; exact absurd h1 h

theorem idx_ok {v : List Nat} {i : Nat} (h : i < v.length) :
    idx v i = Res.ok v[i] := by
  simp [idx, h]

theorem rd_u16_eq_ok {v : List Nat} {a b x : Nat} :
    rd_u16 v a b = Res.ok x ↔ a ≤ b ∧ b ≤ v.length ∧ x = slice_to 2 (sub v a b) := by
  simp only [rd_u16, Res.bind_eq, Res.pure_eq, Res.bind_eq_ok, slice_eq_ok]
  constructor
  · rintro ⟨s, ⟨h1, h2, rfl⟩, h3⟩
    cases h3
    exact ⟨h1, h2, rfl⟩
  · rintro ⟨h1, h2, rfl⟩
    exact ⟨sub v a b, ⟨h1, h2, rfl⟩, rfl⟩

theorem rd_u16_ok {v : List Nat} {a b : Nat} (hab : a ≤ b) (hb : b ≤ v.length) :
    rd_u16 v a b = Res.ok (slice_to 2 (sub v a b)) := by
  simp [rd_u16, slice_ok hab hb]

theorem rd_u32_eq_ok {v : List Nat} {a b x : Nat} :
    rd_u32 v a b = Res.ok x ↔ a ≤ b ∧ b ≤ v.length ∧ x = slice_to 4 (sub v a b) := by
  simp only [rd_u32, Res.bind_eq, Res.pure_eq, Res.bind_eq_ok, slice_eq_ok]
  constructor
  · rintro ⟨s, ⟨h1, h2, rfl⟩, h3⟩
    cases h3
    exact ⟨h1, h2, rfl⟩
  · rintro ⟨h1, h2, rfl⟩
    exact ⟨sub v a b, ⟨h1, h2, rfl⟩, rfl⟩

theorem rd_u32_ok {v : List Nat} {a b : Nat} (hab : a ≤ b) (hb : b ≤ v.length) :
    rd_u32 v a b = Res.ok (slice_to 4 (sub v a b)) := by
  simp [rd_u32, slice_ok hab hb]

theorem rd_i16_eq_ok {v : List Nat} {a b : Nat} {x : Int} :
    rd_i16 v a b = Res.ok x ↔ a ≤ b ∧ b ≤ v.length ∧ x = toI16 (slice_to 2 (sub v a b)) := by
  simp only [rd_i16, Res.bind_eq, Res.pure_eq, Res.bind_eq_ok, rd_u16_eq_ok]
  constructor
  · rintro ⟨y, ⟨h1, h2, rfl⟩, h3⟩
    cases h3
    exact ⟨h1, h2, rfl⟩
  · rintro ⟨h1, h2, rfl⟩
    exact ⟨slice_to 2 (sub v a b), ⟨h1, h2, rfl⟩, rfl⟩

theorem rd_i16_ok {v : List Nat} {a b : Nat} (hab : a ≤ b) (hb : b ≤ v.length) :
    rd_i16 v a b = Res.ok (toI16 (slice_to 2 (sub v a b))) := by
  simp [rd_i16, rd_u16_ok hab hb]

theorem slice_cnt_eq_ok {v : List Nat} {a len : Nat} {s : List Nat} :
    slice_cnt v a len = Res.ok s ↔ a + len ≤ v.length ∧ s = sub v a (a + len) := by
  have hs : a + len ≤ v.length → (sub v a (a + len)).length = len := by
    intro h
    rw [sub_length h]; omega
  simp only [slice_cnt, Res.bind_eq, Res.pure_eq, Res.bind_eq_ok, slice_eq_ok]
  constructor
  · rintro ⟨s', ⟨h1, h2, rfl⟩, h3⟩
    rw [hs h2, if_pos rfl] at h3
    cases h3
    exact ⟨h2, rfl⟩
  · rintro ⟨h2, rfl⟩
    exact ⟨sub v a (a + len), ⟨by omega, h2, rfl⟩, by rw [hs h2, if_pos rfl]⟩

theorem slice_cnt_ok {v : List Nat} {a len : Nat} (h : a + len ≤ v.length) :
    slice_cnt v a len = Res.ok (sub v a (a + len)) := by
  rw [slice_cnt_eq_ok]
  exact ⟨h, rfl⟩

theorem read_from_bytes_eq_ok {s : List Nat} {st : AsepriteString} :
    AsepriteString.read_from_bytes s = Res.ok st ↔
      2 ≤ s.length ∧ st = ⟨slice_to 2 (sub s 0 2), sub s 2 s.length⟩ := by
  simp only [AsepriteString.read_from_bytes, Res.bind_eq, Res.pure_eq, Res.bind_eq_ok,
    slice_eq_ok]
  constructor
  · rintro ⟨p, ⟨_, h2, rfl⟩, d, ⟨h3, _, rfl⟩, h4⟩
    cases h4
    exact ⟨h3, rfl⟩
  · rintro ⟨h2, rfl⟩
    exact ⟨sub s 0 2, ⟨by omega, h2, rfl⟩, sub s 2 s.length, ⟨h2, le_refl _, rfl⟩, rfl⟩

theorem read_from_bytes_ok {s : List Nat} (h : 2 ≤ s.length) :
    AsepriteString.read_from_bytes s =
      Res.ok ⟨slice_to 2 (sub s 0 2), sub s 2 s.length⟩ := by
  rw [read_from_bytes_eq_ok]
  exact ⟨h, rfl⟩

/-! Helper lemmas about the modulo-wrapped enumeration decoders. -/

theorem celType_fromValue_mod (v : Nat) :
    AsepriteCelType.fromValue v = AsepriteCelType.fromValue (v % 4) := by
  have h : v % 4 % 4 = v % 4 := by omega
  unfold AsepriteCelType.fromValue
  rw [h]

theorem celType_fromValue_total (v : Nat) :
    ∃ t, AsepriteCelType.fromValue v = Res.ok t := by
  have h4 : v % 4 < 4 := Nat.mod_lt _ (by norm_num)
  unfold AsepriteCelType.fromValue
  revert h4
  generalize v % 4 = r
  intro h4
  interval_cases r <;> exact ⟨_, rfl⟩

theorem layerType_fromValue_mod (v : Nat) :
    AsepriteLayerType.fromValue v = AsepriteLayerType.fromValue (v % 3) := by
  have h : v % 3 % 3 = v % 3 := by omega
  unfold AsepriteLayerType.fromValue
  rw [h]

theorem layerType_fromValue_total (v : Nat) :
    ∃ t, AsepriteLayerType.fromValue v = Res.ok t := by
  have h3 : v % 3 < 3 := Nat.mod_lt _ (by norm_num)
  unfold AsepriteLayerType.fromValue
  revert h3
  generalize v % 3 = r
  intro h3
  interval_cases r <;> exact ⟨_, rfl⟩

theorem blendMode_fromValue_mod (v : Nat) :
    AsepriteBlendMode.fromValue v = AsepriteBlendMode.fromValue (v % 19) := by
  have h : v % 19 % 19 = v % 19 := by omega
  unfold AsepriteBlendMode.fromValue
  rw [h]

theorem blendMode_fromValue_total (v : Nat) :
    ∃ t, AsepriteBlendMode.fromValue v = Res.ok t := by
  have h19 : v % 19 < 19 := Nat.mod_lt _ (by norm_num)
  unfold AsepriteBlendMode.fromValue
  revert h19
  generalize v % 19 = r
  intro h19
  interval_cases r <;> exact ⟨_, rfl⟩

theorem tagDirection_fromValue_mod (v : Nat) :
    AsepriteTagDirection.fromValue v = AsepriteTagDirection.fromValue (v % 4) := by
  have h : v % 4 % 4 = v % 4 := by omega
  unfold AsepriteTagDirection.fromValue
  rw [h]

theorem tagDirection_fromValue_total (v : Nat) :
    ∃ t, AsepriteTagDirection.fromValue v = Res.ok t := by
  have h4 : v % 4 < 4 := Nat.mod_lt _ (by norm_num)
  unfold AsepriteTagDirection.fromValue
  revert h4
  generalize v % 4 = r
  intro h4
  interval_cases r <;> exact ⟨_, rfl⟩

theorem AsepriteCelType.fromValue_raw {v : Nat} (h : v % 4 = 0) :
    AsepriteCelType.fromValue v = Res.ok AsepriteCelType.Raw := by
  unfold AsepriteCelType.fromValue
  rw [h]

theorem AsepriteCelType.fromValue_compressed {v : Nat} (h : v % 4 = 2) :
    AsepriteCelType.fromValue v = Res.ok AsepriteCelType.CompressedImage := by
  unfold AsepriteCelType.fromValue
  rw [h]

/-- Claim C6: every enumeration decoder clamps its wire value into the valid
member set by modulo of the set size and never errors — cel kind modulo 4
(so wire value 7 decodes to `CompressedTilemap`), layer kind modulo 3,
blend mode modulo 19, tag direction modulo 4; in each case the decode
succeeds with some member (the `unreachable!` arm never fires). -/
theorem claim_C6 :
    (∀ v : Nat, AsepriteCelType.fromValue v = AsepriteCelType.fromValue (v % 4) ∧
      ∃ t, AsepriteCelType.fromValue v = Res.ok t) ∧
    (∀ v : Nat, AsepriteLayerType.fromValue v = AsepriteLayerType.fromValue (v % 3) ∧
      ∃ t, AsepriteLayerType.fromValue v = Res.ok t) ∧
    (∀ v : Nat, AsepriteBlendMode.fromValue v = AsepriteBlendMode.fromValue (v % 19) ∧
      ∃ t, AsepriteBlendMode.fromValue v = Res.ok t) ∧
    (∀ v : Nat, AsepriteTagDirection.fromValue v = AsepriteTagDirection.fromValue (v % 4) ∧
      ∃ t, AsepriteTagDirection.fromValue v = Res.ok t) ∧
    AsepriteCelType.fromValue 7 = Res.ok AsepriteCelType.CompressedTilemap :=
  ⟨fun v => ⟨celType_fromValue_mod v, celType_fromValue_total v⟩,
   fun v => ⟨layerType_fromValue_mod v, layerType_fromValue_total v⟩,
   fun v => ⟨blendMode_fromValue_mod v, blendMode_fromValue_total v⟩,
   fun v => ⟨tagDirection_fromValue_mod v, tagDirection_fromValue_total v⟩,
   rfl⟩

/-- Claim C9 counterexample: `slice_cnt!` on a too-short range does not
yield an all-zero array — the range indexing panics first, so the claim's
second half is false at the concrete input `slice_cnt [] 0 3`. -/
theorem claim_C9_counterexample :
    slice_cnt ([] : List Nat) 0 3 = Res.panicked "slice index out of range" ∧
    slice_cnt ([] : List Nat) 0 3 ≠ Res.ok [0, 0, 0] := by
  decide

/-- Claim C9 (amended): decoding an N-byte little-endian integer via
`slice_to!` from a range shorter than N is total and yields zero, but
decoding a fixed-length byte array via `slice_cnt!` from a too-short range
panics on the out-of-bounds indexing (its zero-array fallback is dead
code) rather than yielding an all-zero array. -/
theorem claim_C9 :
    (∀ (n : Nat) (s : List Nat), s.length < n → slice_to n s = 0) ∧
    (∀ (v : List Nat) (a len : Nat), v.length < a + len →
      slice_cnt v a len = Res.panicked "slice index out of range") := by
  constructor
  · intro n s h
    simp [slice_to]
    omega
  · intro v a len h
    have hc : ¬(a + len ≤ v.length) := by omega
    simp [slice_cnt, slice, hc]

/-- Witness for C9 at concrete inputs: a 1-byte range decoded as a u16
yields 0, and a 2-byte read at offset 1 of an empty buffer panics. -/
theorem claim_C9_witness :
    slice_to 2 [5] = 0 ∧
    slice_cnt ([] : List Nat) 1 2 = Res.panicked "slice index out of range" :=
  ⟨claim_C9.1 2 [5] (by decide), claim_C9.2 [] 1 2 (by decide)⟩

/-- A 128-byte header whose magic field at offset 4 holds 0xA5E0
little-endian and whose other fields are all zero. -/
def c1_header : List Nat := List.replicate 4 0 ++ [0xE0, 0xA5] ++ List.replicate 122 0

/-- A 16-byte frame header with the frame magic 0xF1FA and a declared chunk
count of 1. -/
def c1_frame : List Nat := [38, 0, 0, 0, 0xFA, 0xF1, 0, 0, 0, 0, 0, 0, 1, 0, 0, 0]

/-- A 22-byte cel chunk whose cel-kind wire value at offset 13 is 3, i.e. a
CompressedTilemap cel. -/
def c1_chunk : List Nat :=
  [22, 0, 0, 0, 0x05, 0x20, 0, 0, 0, 0, 0, 0, 0, 3, 0, 0, 0, 0, 0, 0, 0, 0]

/-- A full stream containing a single frame with a single CompressedTilemap
cel chunk. -/
def c1_stream : List Nat := c1_header ++ c1_frame ++ c1_chunk

/-- Claim C7: for every stream with at least 128 header bytes whose magic
field at offset 4 does not decode to 0xA5E0, `read` fails with the
`BadMagic` return site and produces no document — the frame loop is never
entered. -/
theorem claim_C7 (inflate : List Nat → Option (List Nat)) (stream : List Nat)
    (h128 : 128 ≤ stream.length)
    (hmagic : slice_to 2 (sub stream 4 6) ≠ ASEPRITE_MAGIC_HEADER) :
    read inflate stream = Res.err DecodeErr.badMagic := by
  have hrb : readBuf stream 0 128 (List.replicate 128 0) = (sub stream 0 (0 + 128), 128, 0 + 128) :=
    readBuf_exact (by simp) (by omega)
  have hm : (parseHeader (sub stream 0 (0 + 128))).magic = slice_to 2 (sub stream 4 6) := by
    show slice_to 2 (sub (sub stream 0 (0 + 128)) 4 6) = slice_to 2 (sub stream 4 6)
    rw [sub_sub (by omega)]
  unfold read
  rw [hrb]
  dsimp only
  rw [if_neg (by simp), hm, if_pos hmagic]

set_option maxRecDepth 100000 in
/-- Witness for C7: an all-zero 128-byte stream decodes its magic field to
0, which is rejected with `BadMagic`. -/
theorem claim_C7_witness :
    read (fun _ => none) (List.replicate 128 0) = Res.err DecodeErr.badMagic :=
  claim_C7 (fun _ => none) (List.replicate 128 0) (by decide) (by decide)

/-- In any state of the frame loop where a full 16-byte frame header is
available at `pos` but its magic field does not decode to 0xF1FA, the loop
returns the `BadFrameMagic` error before reading any chunk — whatever the
declared chunk count and whatever bytes follow the frame header. -/
theorem readFramesLoop_badFrameMagic (inflate : List Nat → Option (List Nat))
    (stream : List Nat) (fuel pos : Nat) (fbuf : List Nat)
    (hold : fbuf.length = 16) (hb : pos + 16 ≤ stream.length)
    (hmagic : slice_to 2 (sub stream (pos + 4) (pos + 6)) ≠ ASEPRITE_MAGIC_FRAMES) :
    readFramesLoop inflate stream (fuel + 1) pos fbuf = Res.err DecodeErr.badFrameMagic := by
  have hrb : readBuf stream pos 16 fbuf = (sub stream pos (pos + 16), 16, pos + 16) :=
    readBuf_exact hold hb
  have hm : slice_to 2 (sub (sub stream pos (pos + 16)) 4 6) =
      slice_to 2 (sub stream (pos + 4) (pos + 6)) := by
    rw [sub_sub (by omega)]
  simp only [readFramesLoop]
  rw [hrb]
  dsimp only
  rw [if_neg (by omega), hm, if_pos hmagic]

/-- Claim C8: whenever the frame loop meets a frame header whose magic
field is not 0xF1FA, the whole decode fails with `BadFrameMagic` before
any chunk of that frame is read — the first conjunct states this at any
loop state (any position, any fuel left, any declared chunk count, any
bytes after the 16 header bytes), and the second states it for a whole
stream whose header is valid: the result does not depend on `rest`, the
bytes where the frame's chunks would live, so no chunk is read and no
resynchronization is attempted. -/
theorem claim_C8 :
    (∀ (inflate : List Nat → Option (List Nat)) (stream : List Nat) (fuel pos : Nat)
      (fbuf : List Nat), fbuf.length = 16 → pos + 16 ≤ stream.length →
      slice_to 2 (sub stream (pos + 4) (pos + 6)) ≠ ASEPRITE_MAGIC_FRAMES →
      readFramesLoop inflate stream (fuel + 1) pos fbuf = Res.err DecodeErr.badFrameMagic) ∧
    (∀ (inflate : List Nat → Option (List Nat)) (h f rest : List Nat),
      h.length = 128 → slice_to 2 (sub h 4 6) = ASEPRITE_MAGIC_HEADER →
      f.length = 16 → slice_to 2 (sub f 4 6) ≠ ASEPRITE_MAGIC_FRAMES →
      read inflate (h ++ f ++ rest) = Res.err DecodeErr.badFrameMagic) := by
  constructor
  · exact readFramesLoop_badFrameMagic
  · intro inflate h f rest hh hhm hf hfm
    have hlen : (h ++ f ++ rest).length = 128 + 16 + rest.length := by
      simp [hh, hf]; omega
    have hrb : readBuf (h ++ f ++ rest) 0 128 (List.replicate 128 0) =
        (sub (h ++ f ++ rest) 0 (0 + 128), 128, 0 + 128) :=
      readBuf_exact (by simp) (by omega)
    have hm : (parseHeader (sub (h ++ f ++ rest) 0 (0 + 128))).magic =
        slice_to 2 (sub h 4 6) := by
      show slice_to 2 (sub (sub (h ++ f ++ rest) 0 (0 + 128)) 4 6) = slice_to 2 (sub h 4 6)
      rw [sub_sub (by omega)]
      rw [List.append_assoc]
      rw [sub_append_left (by omega)]
    have hfm2 : slice_to 2 (sub (h ++ f ++ rest) (0 + 128 + 4) (0 + 128 + 6)) ≠
        ASEPRITE_MAGIC_FRAMES := by
      rw [List.append_assoc]
      have e4 : (0 : Nat) + 128 + 4 = h.length + 4 := by omega
      have e6 : (0 : Nat) + 128 + 6 = h.length + 6 := by omega
      rw [e4, e6, sub_append_drop, sub_append_left (by omega)]
      exact hfm
    unfold read
    rw [hrb]
    dsimp only
    rw [if_neg (by simp), hm, if_neg (by simp [hhm])]
    rw [hlen]
    rw [readFramesLoop_badFrameMagic inflate (h ++ f ++ rest) (128 + 16 + rest.length)
      (0 + 128) (List.replicate 16 0) (by simp) (by omega) hfm2]
    rfl

set_option maxRecDepth 100000 in
/-- Witness for C8: a stream with a valid all-zero header except for magic
0xA5E0, followed by an all-zero 16-byte frame header (frame magic 0), is
rejected with `BadFrameMagic`. -/
theorem claim_C8_witness :
    read (fun _ => none)
      ((List.replicate 4 0 ++ [0xE0, 0xA5] ++ List.replicate 122 0) ++
        List.replicate 16 0 ++ []) = Res.err DecodeErr.badFrameMagic :=
  claim_C8.2 (fun _ => none) (List.replicate 4 0 ++ [0xE0, 0xA5] ++ List.replicate 122 0)
    (List.replicate 16 0) [] (by decide) (by decide) (by decide) (by decide)

/-- Claim C5: at every chunk whose declared size is at least its own 6-byte
header and fits in the stream, the decoder reads the 4-byte size and the
2-byte type tag, rewinds, and hands the full span `[pos, pos+size)` —
including the 6-byte header — to the type dispatch, consuming exactly
`size` bytes (first conjunct); and when the type tag is none of 0x2004,
0x2005, 0x2018, the result is an Unknown chunk carrying the type tag, the
declared size, and, byte-for-byte, the original stream slice
`[pos, pos+size)` (second conjunct). -/
theorem claim_C5 (inflate : List Nat → Option (List Nat)) (stream : List Nat)
    (pos size tag : Nat)
    (hsz : size = leVal (sub stream pos (pos + 4)))
    (htag : tag = leVal (sub stream (pos + 4) (pos + 6)))
    (h6 : 6 ≤ size) (hb : pos + size ≤ stream.length) :
    readChunk inflate stream pos =
      Res.bind (chunkDispatch inflate size tag (sub stream pos (pos + size)))
        (fun c => Res.ok (c, pos + size)) ∧
    (tag ≠ ASEPRITE_LAYER_CHUNK_MAGIC → tag ≠ ASEPRITE_CEL_CHUNK_MAGIC →
      tag ≠ ASEPRITE_TAG_CHUNK_MAGIC →
      readChunk inflate stream pos =
        Res.ok (Chunk.Unknown ⟨size, tag, sub stream pos (pos + size)⟩, pos + size)) := by
  have hr1 : readBuf stream pos 4 (List.replicate 4 0) = (sub stream pos (pos + 4), 4, pos + 4) :=
    readBuf_exact (by simp) (by omega)
  have hr2 : readBuf stream (pos + 4) 2 (List.replicate 2 0) =
      (sub stream (pos + 4) (pos + 4 + 2), 2, pos + 4 + 2) :=
    readBuf_exact (by simp) (by omega)
  have hr3 : readBuf stream pos size (List.replicate size 0) =
      (sub stream pos (pos + size), size, pos + size) :=
    readBuf_exact (by simp) hb
  have he : pos + 4 + 2 = pos + 6 := by omega
  have hlv : leVal (sub stream pos (pos + 4)) = size := hsz.symm
  have hlv2 : leVal (sub stream (pos + 4) (pos + 6)) = tag := htag.symm
  have hmain : readChunk inflate stream pos =
      Res.bind (chunkDispatch inflate size tag (sub stream pos (pos + size)))
        (fun c => Res.ok (c, pos + size)) := by
    unfold readChunk
    rw [hr1]
    dsimp only
    rw [hlv, hr2, he]
    dsimp only
    rw [hlv2, hr3]
    rfl
  refine ⟨hmain, fun hL hC hT => ?_⟩
  rw [hmain]
  rw [chunkDispatch, if_neg hL, if_neg hC, if_neg hT]
  rfl

/-- Witness for C5: a 7-byte chunk with declared size 7 and unrecognized
type tag 0x30FF round-trips its full span into an Unknown chunk and
consumes exactly 7 bytes. -/
theorem claim_C5_witness :
    readChunk (fun _ => none) [7, 0, 0, 0, 0xFF, 0x30, 9] 0 =
      Res.ok (Chunk.Unknown ⟨7, 0x30FF, [7, 0, 0, 0, 0xFF, 0x30, 9]⟩, 7) := by
  have h := (claim_C5 (fun _ => none) [7, 0, 0, 0, 0xFF, 0x30, 9] 0 7 0x30FF
    (by decide) (by decide) (by decide) (by decide)).2 (by decide) (by decide) (by decide)
  simpa using h

/-- Decoding a Raw cel chunk whose 26-byte preamble `h` declares cel kind 0
stores the rest of the span verbatim as the uncompressed pixel buffer. -/
theorem readCelChunk_raw_append (inflate : List Nat → Option (List Nat)) (h p : List Nat)
    (hl : h.length = 26) (ht : slice_to 2 (sub h 13 15) % 4 = 0) :
    ∃ c, readCelChunk inflate (h ++ p) = Res.ok (Chunk.Cel c) ∧
      c.cel_type = AsepriteCelType.Raw ∧ c.raw_data = some p := by
  have hdl : (h ++ p).length = 26 + p.length := by simp [hl]
  have hct : AsepriteCelType.fromValue (slice_to 2 (sub (h ++ p) 13 15)) =
      Res.ok AsepriteCelType.Raw := by
    rw [sub_append_left (by omega)]
    exact AsepriteCelType.fromValue_raw ht
  have hraw : sub (h ++ p) 26 ((h ++ p).length) = p := by
    rw [sub_all, ← hl, List.drop_left]
  simp only [readCelChunk, Res.bind_eq]
  rw [rd_u16_ok (by omega) (by omega)]
  simp only [Res.ok_bind]
  rw [rd_i16_ok (by omega) (by omega)]
  simp only [Res.ok_bind]
  rw [rd_i16_ok (by omega) (by omega)]
  simp only [Res.ok_bind]
  rw [idx_ok (by omega)]
  simp only [Res.ok_bind]
  rw [rd_u16_ok (by omega) (by omega)]
  simp only [Res.ok_bind]
  rw [hct]
  simp only [Res.ok_bind]
  rw [rd_i16_ok (by omega) (by omega)]
  simp only [Res.ok_bind]
  rw [slice_cnt_ok (by omega)]
  simp only [Res.ok_bind]
  rw [rd_u16_ok (by omega) (by omega)]
  simp only [Res.ok_bind, Res.bind_eq]
  rw [rd_u16_ok (by omega) (by omega)]
  simp only [Res.ok_bind]
  rw [slice_ok (by omega) (le_refl _)]
  simp only [Res.ok_bind, Res.pure_eq]
  rw [hraw]
  exact ⟨_, rfl, rfl, rfl⟩

/-- Decoding a CompressedImage cel chunk whose 26-byte preamble `h`
declares cel kind 2 stores the compressed rest of the span and eagerly
inflates it into the uncompressed pixel buffer. -/
theorem readCelChunk_compressed_append (inflate : List Nat → Option (List Nat))
    (h comp pixels : List Nat) (hl : h.length = 26)
    (ht : slice_to 2 (sub h 13 15) % 4 = 2) (hinf : inflate comp = some pixels) :
    ∃ c, readCelChunk inflate (h ++ comp) = Res.ok (Chunk.Cel c) ∧
      c.cel_type = AsepriteCelType.CompressedImage ∧ c.raw_data = some pixels ∧
      c.compressed_data = some comp := by
  have hdl : (h ++ comp).length = 26 + comp.length := by simp [hl]
  have hct : AsepriteCelType.fromValue (slice_to 2 (sub (h ++ comp) 13 15)) =
      Res.ok AsepriteCelType.CompressedImage := by
    rw [sub_append_left (by omega)]
    exact AsepriteCelType.fromValue_compressed ht
  have hcomp : sub (h ++ comp) 26 ((h ++ comp).length) = comp := by
    rw [sub_all, ← hl, List.drop_left]
  simp only [readCelChunk, Res.bind_eq]
  rw [rd_u16_ok (by omega) (by omega)]
  simp only [Res.ok_bind]
  rw [rd_i16_ok (by omega) (by omega)]
  simp only [Res.ok_bind]
  rw [rd_i16_ok (by omega) (by omega)]
  simp only [Res.ok_bind]
  rw [idx_ok (by omega)]
  simp only [Res.ok_bind]
  rw [rd_u16_ok (by omega) (by omega)]
  simp only [Res.ok_bind]
  rw [hct]
  simp only [Res.ok_bind]
  rw [rd_i16_ok (by omega) (by omega)]
  simp only [Res.ok_bind]
  rw [slice_cnt_ok (by omega)]
  simp only [Res.ok_bind]
  rw [rd_u16_ok (by omega) (by omega)]
  simp only [Res.ok_bind, Res.bind_eq]
  rw [rd_u16_ok (by omega) (by omega)]
  simp only [Res.ok_bind]
  rw [slice_ok (by omega) (le_refl _)]
  simp only [Res.ok_bind, Res.pure_eq]
  rw [hcomp, hinf]
  exact ⟨_, rfl, rfl, rfl, rfl⟩

/-- Claim C2: a Raw cel and a CompressedImage cel carrying the same logical
pixels — the inflater maps the compressed payload to exactly the Raw cel's
pixel bytes — decode to byte-identical uncompressed `raw_data` buffers:
the CompressedImage decoder eagerly inflates into the same uncompressed
representation the Raw decoder stores. -/
theorem claim_C2 (inflate : List Nat → Option (List Nat)) (h₁ h₂ pixels comp : List Nat)
    (hl₁ : h₁.length = 26) (hl₂ : h₂.length = 26)
    (ht₁ : slice_to 2 (sub h₁ 13 15) % 4 = 0)
    (ht₂ : slice_to 2 (sub h₂ 13 15) % 4 = 2)
    (hinf : inflate comp = some pixels) :
    ∃ c₁ c₂ : AsepriteCelChunk,
      readCelChunk inflate (h₁ ++ pixels) = Res.ok (Chunk.Cel c₁) ∧
      readCelChunk inflate (h₂ ++ comp) = Res.ok (Chunk.Cel c₂) ∧
      c₁.raw_data = some pixels ∧ c₂.raw_data = some pixels ∧
      c₁.raw_data = c₂.raw_data := by
  obtain ⟨c₁, e₁, _, r₁⟩ := readCelChunk_raw_append inflate h₁ pixels hl₁ ht₁
  obtain ⟨c₂, e₂, _, r₂, _⟩ := readCelChunk_compressed_append inflate h₂ comp pixels hl₂ ht₂ hinf
  exact ⟨c₁, c₂, e₁, e₂, r₁, r₂, by rw [r₁, r₂]⟩

/-- A 26-byte cel preamble declaring cel kind 0 (Raw). -/
def c2_h1 : List Nat := List.replicate 26 0

/-- A 26-byte cel preamble declaring cel kind 2 (CompressedImage). -/
def c2_h2 : List Nat := List.replicate 13 0 ++ [2, 0] ++ List.replicate 11 0

/-- Witness for C2: with the identity inflater, a Raw cel with pixel byte 9
and a CompressedImage cel with payload 9 decode to the same raw buffer. -/
theorem claim_C2_witness :
    ∃ c₁ c₂ : AsepriteCelChunk,
      readCelChunk (fun l => some l) (c2_h1 ++ [9]) = Res.ok (Chunk.Cel c₁) ∧
      readCelChunk (fun l => some l) (c2_h2 ++ [9]) = Res.ok (Chunk.Cel c₂) ∧
      c₁.raw_data = some [9] ∧ c₂.raw_data = some [9] ∧
      c₁.raw_data = c₂.raw_data :=
  claim_C2 (fun l => some l) c2_h1 c2_h2 [9] [9] (by decide) (by decide)
    (by decide) (by decide) rfl

/-- Claim C10: in every successfully decoded Cel chunk the cel-kind
discriminant determines exactly which optional fields are populated — Raw
populates width, height and raw_data and leaves linked_to and
compressed_data empty; Linked populates only linked_to; CompressedImage
populates width, height, compressed_data and (eagerly inflated) raw_data
and leaves linked_to empty. -/
theorem claim_C10 (inflate : List Nat → Option (List Nat)) (data : List Nat)
    (c : AsepriteCelChunk) (h : readCelChunk inflate data = Res.ok (Chunk.Cel c)) :
    (c.cel_type = AsepriteCelType.Raw →
      c.width.isSome ∧ c.height.isSome ∧ c.raw_data.isSome ∧
      c.linked_to = none ∧ c.compressed_data = none) ∧
    (c.cel_type = AsepriteCelType.Linked →
      c.linked_to.isSome ∧ c.width = none ∧ c.height = none ∧
      c.raw_data = none ∧ c.compressed_data = none) ∧
    (c.cel_type = AsepriteCelType.CompressedImage →
      c.width.isSome ∧ c.height.isSome ∧ c.compressed_data.isSome ∧
      c.raw_data.isSome ∧ c.linked_to = none) := by
  simp only [readCelChunk, Res.bind_eq, Res.pure_eq, Res.bind_eq_ok] at h
  obtain ⟨li, -, x, -, y, -, op, -, ctw, -, ct, -, z, -, fut, -, hm⟩ := h
  split at hm
  · simp only [Res.bind_eq, Res.pure_eq, Res.bind_eq_ok] at hm
    obtain ⟨w, -, hgt, -, raw, -, hfin⟩ := hm
    cases hfin
    simp
  · simp only [Res.bind_eq, Res.pure_eq, Res.bind_eq_ok] at hm
    obtain ⟨lnk, -, hfin⟩ := hm
    cases hfin
    simp
  · simp only [Res.bind_eq, Res.pure_eq, Res.bind_eq_ok] at hm
    obtain ⟨w, -, hgt, -, comp, -, hfin⟩ := hm
    split at hfin
    · cases hfin
      simp
    · cases hfin
  · cases hm

/-- A 26-byte cel chunk span declaring cel kind 0 (Raw) with no pixel
bytes. -/
def c10_data : List Nat := List.replicate 26 0

/-- The Cel chunk decoded from `c10_data`. -/
def c10_cel : AsepriteCelChunk :=
  ⟨0, 0, 0, 0, AsepriteCelType.Raw, 0, [0, 0, 0, 0, 0], some 0, some 0, some [], none, none⟩

/-- Witness for C10 at a concrete Raw cel: width, height and raw_data are
populated while linked_to and compressed_data are empty. -/
theorem claim_C10_witness :
    c10_cel.width.isSome ∧ c10_cel.height.isSome ∧ c10_cel.raw_data.isSome ∧
    c10_cel.linked_to = none ∧ c10_cel.compressed_data = none :=
  (claim_C10 (fun _ => some []) c10_data c10_cel (by decide)).1 (by decide)

/-- The tag-record walk, characterized: whenever `readTagsLoop` succeeds
from offset `off` with `n` records, it decodes exactly `n` tags and the
final offset is `off` plus `19 + name-byte-length` for each decoded tag —
the variable stride of the source loop. -/
theorem readTagsLoop_spec (data : List Nat) :
    ∀ (n off : Nat) (tags : List AsepriteTag) (fin : Nat),
      readTagsLoop data off n = Res.ok (tags, fin) →
      tags.length = n ∧
        fin = off + (tags.map (fun t => 19 + t.name.data.length)).sum := by
  intro n
  induction n with
  | zero =>
      intro off tags fin h
      simp only [readTagsLoop, Res.pure_eq] at h
      cases h
      simp
  | succ n ih =>
      intro off tags fin h
      simp only [readTagsLoop, Res.bind_eq, Res.pure_eq, Res.bind_eq_ok] at h
      obtain ⟨nlPre, hnl, f, -, t, -, db, -, dir, -, rep, -, res, -, col, -, ex, -,
        nb, hnb, nm, hnm, pr, hrec, hfin⟩ := h
      obtain ⟨rest, fin'⟩ := pr
      replace hfin : Res.ok
          ((⟨f, t, dir, rep, res, col, ex, nm⟩ : AsepriteTag) :: rest, fin') =
          Res.ok (tags, fin) := hfin
      cases hfin
      rw [slice_eq_ok] at hnb
      obtain ⟨hb1, hb2, rfl⟩ := hnb
      rw [read_from_bytes_eq_ok] at hnm
      obtain ⟨hm1, rfl⟩ := hnm
      obtain ⟨ihl, ihf⟩ := ih _ _ _ hrec
      have hlb : (sub data (17 + off) (19 + off + slice_to 2 nlPre)).length =
          19 + off + slice_to 2 nlPre - (17 + off) := sub_length hb2
      have hnd : (sub (sub data (17 + off) (19 + off + slice_to 2 nlPre)) 2
          ((sub data (17 + off) (19 + off + slice_to 2 nlPre)).length)).length =
          slice_to 2 nlPre := by
        rw [sub_length (le_refl _), hlb]
        omega
      constructor
      · simp [ihl]
      · simp only [List.map_cons, List.sum_cons]
        rw [hnd, ihf]
        omega

/-- Claim C4: for every successfully decoded Tag chunk, the decoder walks
the records with a running offset starting at 16 (relative to the chunk
span, which includes the 6-byte chunk header) advancing by exactly
`19 + name_byte_length` per record, so the record region ends exactly at
offset `16 + Σ(19 + L_i)` — with `N` records of name byte-lengths
`L_1..L_N`, the total chunk-span length consumed is `16 + Σ(19 + L_i)`,
never a fixed stride. -/
theorem claim_C4 (data : List Nat) (c : AsepriteTagChunk)
    (h : readTagChunk data = Res.ok (Chunk.Tag c)) :
    c.tags.length = c.tag_count ∧
    readTagsLoop data 16 c.tag_count =
      Res.ok (c.tags, 16 + (c.tags.map (fun t => 19 + t.name.data.length)).sum) := by
  simp only [readTagChunk, Res.bind_eq, Res.pure_eq, Res.bind_eq_ok] at h
  obtain ⟨tc, htc, fut, -, pr, hloop, hfin⟩ := h
  obtain ⟨tags, fin⟩ := pr
  replace hfin : Res.ok (Chunk.Tag ⟨tc, fut, tags⟩) = Res.ok (Chunk.Tag c) := hfin
  cases hfin
  obtain ⟨hlen, hfv⟩ := readTagsLoop_spec data tc 16 tags fin hloop
  refine ⟨hlen, ?_⟩
  rw [← hfv]
  exact hloop

/-- A 55-byte Tag chunk span: declared size 55, type 0x2018, 2 records —
one with a 1-byte name and one with an empty name. -/
def c4_data : List Nat :=
  [55, 0, 0, 0, 0x18, 0x20, 2, 0, 0, 0, 0, 0, 0, 0, 0, 0] ++
  ([0, 0, 0, 0, 0, 0, 0, 0, 0, 0, 0, 0, 0, 0, 0, 0, 0] ++ [1, 0, 65]) ++
  ([0, 0, 0, 0, 0, 0, 0, 0, 0, 0, 0, 0, 0, 0, 0, 0, 0] ++ [0, 0])

/-- The Tag chunk decoded from `c4_data`. -/
def c4_chunk : AsepriteTagChunk :=
  ⟨2, [0, 0, 0, 0, 0, 0, 0, 0],
   [⟨0, 0, AsepriteTagDirection.Forward, 0, [0, 0, 0, 0, 0, 0], [0, 0, 0], 0, ⟨1, [65]⟩⟩,
    ⟨0, 0, AsepriteTagDirection.Forward, 0, [0, 0, 0, 0, 0, 0], [0, 0, 0], 0, ⟨0, []⟩⟩]⟩

/-- Witness for C4 at `c4_data`: two records with name lengths 1 and 0, and
the walk ends exactly at offset 16 + (19 + 1) + (19 + 0) = 55, the chunk's
total span length. -/
theorem claim_C4_witness :
    c4_chunk.tags.length = c4_chunk.tag_count ∧
    readTagsLoop c4_data 16 c4_chunk.tag_count =
      Res.ok (c4_chunk.tags, 16 + (c4_chunk.tags.map (fun t => 19 + t.name.data.length)).sum) :=
  claim_C4 c4_data c4_chunk (by decide)

/-- A 28-byte Tilemap Layer chunk span: declared size 28, type 0x2004,
layer-kind wire value 2 (Tilemap), an empty name (2-byte length prefix 0,
no name bytes), and tileset-index bytes [1,2,3,4]. -/
def c3_data : List Nat :=
  [28, 0, 0, 0, 0x04, 0x20, 0, 0, 2, 0, 0, 0, 0, 0, 0, 0, 0, 0, 0, 0, 0, 0, 0, 0, 1, 2, 3, 4]

/-- Claim C3 counterexample: `c3_data` decodes as a Tilemap layer whose
name has byte-length L = 0, yet its payload after the 6-byte chunk header
is 28 - 6 = 22 bytes, not the claimed 22 + L + 4 = 26 — the claim's size
formula counts the name's start offset within the whole chunk span (22)
as if it were payload, so it is off by the 4 bytes of size field it
double-counts. -/
theorem claim_C3_counterexample :
    readLayerChunk c3_data =
      Res.ok (Chunk.Layer ⟨0, AsepriteLayerType.Tilemap, 0, 0, 0, AsepriteBlendMode.Normal, 0,
        [0, 0, 0], ⟨0, []⟩, some 67305985⟩) ∧
    c3_data.length - 6 ≠ 22 + 0 + 4 := by
  decide

/-- Claim C3 (amended): for every successfully decoded Layer chunk with
decoded name byte-length L, a Tilemap layer occupies exactly 18 + L + 4
bytes of payload after the 6-byte chunk header, with the last 4 bytes of
the chunk span excluded from the name field's range — which runs from
chunk offset 22 (2-byte length prefix) with name bytes at
[24, length - 4) — and decoded separately as the 32-bit tileset index; a
non-Tilemap layer occupies exactly 18 + L bytes of payload, its name
field extends to the end of the chunk span, and no tileset index is
produced. -/
theorem claim_C3 (data : List Nat) (c : AsepriteLayerChunk)
    (h : readLayerChunk data = Res.ok (Chunk.Layer c)) :
    (c.layer_type = AsepriteLayerType.Tilemap →
      data.length - 6 = 18 + c.name.data.length + 4 ∧
      c.name.data = sub data 24 (data.length - 4) ∧
      c.tileset_index = some (slice_to 4 (sub data (data.length - 4) data.length))) ∧
    (c.layer_type ≠ AsepriteLayerType.Tilemap →
      data.length - 6 = 18 + c.name.data.length ∧
      c.name.data = sub data 24 data.length ∧
      c.tileset_index = none) := by
  simp only [readLayerChunk, Res.bind_eq, Res.pure_eq, Res.bind_eq_ok] at h
  obtain ⟨ltw, -, lt, -, hrest⟩ := h
  by_cases hT : lt = AsepriteLayerType.Tilemap
  · have hd : decide (lt = AsepriteLayerType.Tilemap) = true := decide_eq_true hT
    rw [if_pos hd] at hrest
    obtain ⟨fl, -, cl, -, dwv, -, dhv, -, bmw, -, bm, -, op, -, fut, -,
      nb, hnb, nm, hnm, hti⟩ := hrest
    rw [if_pos hd] at hti
    simp only [Res.ok_bind, Res.bind_eq, Res.bind_eq_ok] at hti
    obtain ⟨t, htv, hfin⟩ := hti
    replace hfin : Res.ok
        (Chunk.Layer ⟨fl, lt, cl, dwv, dhv, bm, op, fut, nm, some t⟩) =
        Res.ok (Chunk.Layer c) := hfin
    cases hfin
    rw [slice_eq_ok] at hnb
    obtain ⟨hb1, hb2, rfl⟩ := hnb
    rw [read_from_bytes_eq_ok] at hnm
    obtain ⟨hm1, rfl⟩ := hnm
    rw [rd_u32_eq_ok] at htv
    obtain ⟨-, -, rfl⟩ := htv
    have hlb : (sub data 22 (data.length - 4)).length = data.length - 4 - 22 :=
      sub_length hb2
    have hrange : sub (sub data 22 (data.length - 4)) 2
        ((sub data 22 (data.length - 4)).length) = sub data 24 (data.length - 4) :=
      name_range
    have hL : (sub (sub data 22 (data.length - 4)) 2
        ((sub data 22 (data.length - 4)).length)).length = data.length - 4 - 24 := by
      rw [hrange, sub_length (by omega)]
    rw [hlb] at hm1
    constructor
    · intro _
      refine ⟨?_, ?_, rfl⟩
      · simp only [AsepriteLayerChunk.name]
        rw [hL]
        omega
      · simp only [AsepriteLayerChunk.name]
        exact hrange
    · intro hc
      exact absurd hT hc
  · have hd : decide (lt = AsepriteLayerType.Tilemap) = false := decide_eq_false hT
    have hd' : ¬(decide (lt = AsepriteLayerType.Tilemap) = true) := by
      simp [hd]
    rw [if_neg hd', Nat.sub_zero] at hrest
    obtain ⟨fl, -, cl, -, dwv, -, dhv, -, bmw, -, bm, -, op, -, fut, -,
      nb, hnb, nm, hnm, hti⟩ := hrest
    rw [if_neg hd'] at hti
    simp only [Res.ok_bind] at hti
    replace hti : Res.ok
        (Chunk.Layer ⟨fl, lt, cl, dwv, dhv, bm, op, fut, nm, none⟩) =
        Res.ok (Chunk.Layer c) := hti
    cases hti
    rw [slice_eq_ok] at hnb
    obtain ⟨hb1, hb2, rfl⟩ := hnb
    rw [read_from_bytes_eq_ok] at hnm
    obtain ⟨hm1, rfl⟩ := hnm
    have hlb : (sub data 22 data.length).length = data.length - 22 :=
      sub_length (le_refl _)
    have hrange : sub (sub data 22 data.length) 2
        ((sub data 22 data.length).length) = sub data 24 data.length :=
      name_range
    have hL : (sub (sub data 22 data.length) 2
        ((sub data 22 data.length).length)).length = data.length - 24 := by
      rw [hrange, sub_length (le_refl _)]
    rw [hlb] at hm1
    constructor
    · intro hc
      exact absurd hc hT
    · intro _
      refine ⟨?_, ?_, rfl⟩
      · simp only [AsepriteLayerChunk.name]
        rw [hL]
        omega
      · simp only [AsepriteLayerChunk.name]
        exact hrange

/-- The Layer chunk decoded from `c3_data`. -/
def c3_chunk : AsepriteLayerChunk :=
  ⟨0, AsepriteLayerType.Tilemap, 0, 0, 0, AsepriteBlendMode.Normal, 0,
   [0, 0, 0], ⟨0, []⟩, some 67305985⟩

/-- Witness for amended C3 at `c3_data`: a Tilemap layer with empty name;
its payload after the 6-byte header is 22 = 18 + 0 + 4 bytes, the name
bytes are the (empty) range [24, 24), and the tileset index decodes from
the last 4 bytes. -/
theorem claim_C3_witness :
    c3_data.length - 6 = 18 + c3_chunk.name.data.length + 4 ∧
    c3_chunk.name.data = sub c3_data 24 (c3_data.length - 4) ∧
    c3_chunk.tileset_index =
      some (slice_to 4 (sub c3_data (c3_data.length - 4) c3_data.length)) :=
  (claim_C3 c3_data c3_chunk (by decide)).1 (by decide)

set_option maxRecDepth 100000 in
/-- Claim C1: decoding a stream containing a CompressedTilemap cel does NOT
return a catchable UnsupportedFeature error through the result channel —
the source hits `unimplemented!("compressed tilemap unsupported")`, a
panic that aborts the decode uncatchably; no error variant for an
unsupported feature even exists in the source (`read` returns
`Result<Aseprite, ()>`).  This theorem evaluates the decoder at the
failing input and exhibits the panic. -/
theorem claim_C1 :
    read (fun _ => none) c1_stream = Res.panicked "compressed tilemap unsupported" := by
  decide

end Ase
